import Mathlib

/-!
# Verification of the GNL VINA scan persistence and validation layer

Shallow embedding of the repository's data layer: the entity shapes
(`Template`, `Image`, `Record`, `RecogEvent` from `database.ts`), the
repository operations over in-memory table states (`repositories.ts`), and
the derived-value utilities (`utils.ts`).

Modelling conventions:
* JavaScript numbers are modelled as rationals (`ℚ`); integer matrix entries
  for the homography encoding are modelled as `ℤ`.
* A TypeScript optional field (`x?: T`) is an `Option`; JavaScript
  truthiness of such a field is `false` exactly on `none`, numeric `0`, and
  the empty string (`NaN` is outside the model).
* A SQL table is a `List` of typed row structures; `NULL` is `none`.
  SQL comparisons against `NULL` are not satisfied, `ORDER BY` is modelled
  with `List.insertionSort`, `ORDER BY ... DESC` puts `NULL` keys last,
  aggregates fold over the selected rows inside the store.
* Fallible JavaScript calls are modelled with `JsOutcome`: a normal return
  is `ok`, a thrown exception is `thrown`.
-/

namespace GnlVinaScan

/-- JavaScript truthiness of an optional number: `undefined` and `0` are falsy. -/
def truthyQ : Option ℚ → Bool
  | none => false
  | some q => q != 0

/-- JavaScript truthiness of an optional string: `undefined` and `""` are falsy. -/
def truthyS : Option String → Bool
  | none => false
  | some s => s != ""

/-- The marshalling expression `x || null` on an optional number. -/
def orNullQ (v : Option ℚ) : Option ℚ := if truthyQ v then v else none

/-- The marshalling expression `x || null` on an optional string. -/
def orNullS (v : Option String) : Option String := if truthyS v then v else none

/-- The marshalling expression `x || d` with a numeric default `d`. -/
def orDefaultQ (v : Option ℚ) (d : ℚ) : ℚ := if truthyQ v then v.getD d else d

/-- The marshalling expression `x || d` with a string default `d`. -/
def orDefaultS (v : Option String) (d : String) : String := if truthyS v then v.getD d else d

/-- The `Image` entity of `database.ts`. -/
structure Image where
  img_id : String
  uri : String
  rectified_uri : Option String := none
  template_id : Option String := none
  homography : Option String := none
  blur : Option ℚ := none
  glare : Option ℚ := none
  created_at : String
  deriving DecidableEq, Repr

/-- The `Record` entity of `database.ts` (transaction row payload). -/
structure Record where
  id : Option ℤ := none
  date : Option String := none
  hour : Option String := none
  site : Option String := none
  form_type : Option String := none
  model_code : Option String := none
  input_L_mm : Option ℚ := none
  input_W_mm : Option ℚ := none
  input_T_mm : Option ℚ := none
  input_count : Option ℚ := none
  output_L_mm : Option ℚ := none
  output_W_mm : Option ℚ := none
  output_T_mm : Option ℚ := none
  output_count : Option ℚ := none
  qc_ok : Option ℚ := none
  qc_ng : Option ℚ := none
  operator_id : Option String := none
  batch_no : Option String := none
  line_id : Option String := none
  notes : Option String := none
  img_ref : Option String := none
  source_img_id : Option String := none
  model_version : Option String := none
  verified : Option ℚ := none
  created_at : String
  deriving DecidableEq, Repr

/-- The `RecogEvent` entity of `database.ts`. -/
structure RecogEvent where
  id : Option ℤ := none
  img_id : Option String := none
  field_id : Option String := none
  raw_text : Option String := none
  value : Option String := none
  conf : Option ℚ := none
  corrected : Option ℚ := none
  created_at : Option String := none
  deriving DecidableEq, Repr

/-- Embeds `calculateImageQuality` from `utils.ts`: early return `1.0` when both
`blur` and `glare` are falsy, otherwise the min of the two component scores,
where a falsy component contributes `1.0` and a truthy component contributes
`max 0 (1 - value)`. -/
def calculateImageQuality (image : Image) : ℚ :=
  if !truthyQ image.blur && !truthyQ image.glare then 1
  else
    let blurScore := if truthyQ image.blur then max 0 (1 - image.blur.getD 0) else 1
    let glareScore := if truthyQ image.glare then max 0 (1 - image.glare.getD 0) else 1
    min blurScore glareScore

/-- Spec-side formula (stated from the spec's words, for comparison with
`calculateImageQuality`): one component of the quality score,
`max (0, 1 − value)`, with an absent component contributing `1.0`. -/
def specComponentScore : Option ℚ → ℚ
  | none => 1
  | some c => max 0 (1 - c)

/-- Spec-side formula: `min (max 0 (1 - blur)) (max 0 (1 - glare))` with an
absent component contributing `1.0`. -/
def specQualityScore (blur glare : Option ℚ) : ℚ :=
  min (specComponentScore blur) (specComponentScore glare)

/-- Modelled from the spec: the derivation of `ValidationState.hardGatePassed`
is not present under `src/` (only the `ValidationState` type in
`src/types/form.ts` declares the field; `validateRecord` in `utils.ts` returns
an error list and does not build a `ValidationState`).  Per the spec:
`hardGatePassed` = true only when `qc_ok`, `qc_ng`, `output_count` are all
present and `qc_ok + qc_ng == output_count`; otherwise false (fail-closed). -/
def hardGatePassed (record : Record) : Bool :=
  match record.qc_ok, record.qc_ng, record.output_count with
  | some ok, some ng, some out => ok + ng == out
  | _, _, _ => false

/-- C4: `calculateImageQuality` equals the spec formula
`min (max 0 (1 − blur)) (max 0 (1 − glare))` with absent components
contributing `1.0`; it is exactly `1` when both components are absent; and it
is monotonically non-increasing in blur (for fixed glare) and in glare (for
fixed blur). -/
theorem calculateImageQuality_spec :
    (∀ image : Image, calculateImageQuality image = specQualityScore image.blur image.glare)
    ∧ (∀ image : Image, image.blur = none → image.glare = none →
        calculateImageQuality image = 1)
    ∧ (∀ (image : Image) (b b' : ℚ), b ≤ b' →
        calculateImageQuality { image with blur := some b' }
          ≤ calculateImageQuality { image with blur := some b })
    ∧ (∀ (image : Image) (g g' : ℚ), g ≤ g' →
        calculateImageQuality { image with glare := some g' }
          ≤ calculateImageQuality { image with glare := some g }) := by
  have hmain : ∀ image : Image,
      calculateImageQuality image = specQualityScore image.blur image.glare := by
    intro image
    unfold calculateImageQuality specQualityScore
    cases hb : image.blur with
    | none =>
      cases hg : image.glare with
      | none => simp [truthyQ, specComponentScore]
      | some g =>
        by_cases hg0 : g = 0
        · subst hg0
          simp [truthyQ, specComponentScore]
        · simp [truthyQ, hg0, specComponentScore]
    | some b =>
      cases hg : image.glare with
      | none =>
        by_cases hb0 : b = 0
        · subst hb0
          simp [truthyQ, specComponentScore]
        · simp [truthyQ, hb0, specComponentScore]
      | some g =>
        by_cases hb0 : b = 0 <;> by_cases hg0 : g = 0
        · subst hb0; subst hg0
          simp [truthyQ, specComponentScore]
        · subst hb0
          simp [truthyQ, hg0, specComponentScore]
        · subst hg0
          simp [truthyQ, hb0, specComponentScore]
        · simp [truthyQ, hb0, hg0, specComponentScore]
  refine ⟨hmain, ?_, ?_, ?_⟩
  · intro image hb hg
    rw [hmain image, hb, hg]
    simp [specQualityScore, specComponentScore]
  · intro image b b' hbb
    rw [hmain, hmain]
    apply min_le_min _ le_rfl
    simp only [specComponentScore]
    exact max_le_max le_rfl (by linarith)
  · intro image g g' hgg
    rw [hmain, hmain]
    apply min_le_min le_rfl
    simp only [specComponentScore]
    exact max_le_max le_rfl (by linarith)

/-- Witness for C4 at concrete inputs. -/
theorem calculateImageQuality_spec_witness :
    calculateImageQuality
        { img_id := "i", uri := "u", created_at := "2024-01-01" } = 1
    ∧ calculateImageQuality
        { img_id := "i", uri := "u", blur := some 2, created_at := "2024-01-01" }
        ≤ calculateImageQuality
        { img_id := "i", uri := "u", blur := some 1, created_at := "2024-01-01" } := by
  constructor
  · exact calculateImageQuality_spec.2.1 _ rfl rfl
  · exact calculateImageQuality_spec.2.2.1
      { img_id := "i", uri := "u", created_at := "2024-01-01" } 1 2 (by norm_num)

/-- C1: when `qc_ok`, `qc_ng` and `output_count` are all present,
`hardGatePassed` is true iff `qc_ok + qc_ng = output_count`; when any of the
three is absent, `hardGatePassed` is false. -/
theorem hardGatePassed_iff :
    (∀ (record : Record) (ok ng out : ℚ),
        record.qc_ok = some ok → record.qc_ng = some ng →
        record.output_count = some out →
        (hardGatePassed record = true ↔ ok + ng = out))
    ∧ (∀ record : Record,
        record.qc_ok = none ∨ record.qc_ng = none ∨ record.output_count = none →
        hardGatePassed record = false) := by
  constructor
  · intro record ok ng out hok hng hout
    unfold hardGatePassed
    rw [hok, hng, hout]
    simp
  · intro record habs
    unfold hardGatePassed
    cases hok : record.qc_ok <;> cases hng : record.qc_ng <;>
      cases hout : record.output_count <;> simp_all

/-- Witness for C1 at concrete inputs. -/
theorem hardGatePassed_iff_witness :
    (hardGatePassed
        { qc_ok := some 7, qc_ng := some 3, output_count := some 10,
          created_at := "2024-01-01" } = true
      ↔ (7 : ℚ) + 3 = 10)
    ∧ hardGatePassed { qc_ok := some 7, created_at := "2024-01-01" } = false := by
  constructor
  · exact hardGatePassed_iff.1 _ 7 3 10 rfl rfl rfl
  · exact hardGatePassed_iff.2 _ (Or.inr (Or.inl rfl))

/-- A row of the `templates` table. -/
structure TemplateRow where
  template_id : String
  version : String
  roi_map_json : String
  deriving DecidableEq, Repr

/-- A row of the `images` table (`NULL`-able columns are `Option`). -/
structure ImageRow where
  img_id : String
  uri : String
  rectified_uri : Option String
  template_id : Option String
  homography : Option String
  blur : Option ℚ
  glare : Option ℚ
  created_at : String
  deriving DecidableEq, Repr

/-- A row of the `records` table (`created_at` is `NOT NULL`). -/
structure RecordRow where
  id : ℤ
  date : Option String
  hour : Option String
  site : Option String
  form_type : Option String
  model_code : Option String
  input_L_mm : Option ℚ
  input_W_mm : Option ℚ
  input_T_mm : Option ℚ
  input_count : Option ℚ
  output_L_mm : Option ℚ
  output_W_mm : Option ℚ
  output_T_mm : Option ℚ
  output_count : Option ℚ
  qc_ok : Option ℚ
  qc_ng : Option ℚ
  operator_id : Option String
  batch_no : Option String
  line_id : Option String
  notes : Option String
  img_ref : Option String
  source_img_id : Option String
  model_version : Option String
  verified : Option ℚ
  created_at : String
  deriving DecidableEq, Repr

/-- A row of the `recog_events` table (`created_at` is nullable here). -/
structure RecogEventRow where
  id : ℤ
  img_id : Option String
  field_id : Option String
  raw_text : Option String
  value : Option String
  conf : Option ℚ
  corrected : Option ℚ
  created_at : Option String
  deriving DecidableEq, Repr

/-- Embeds `RecordsRepository.create`: the row inserted for a given entity, with the
source's `record.field || null` marshalling of every optional field,
`record.verified || 0` for the flag, and `record.created_at` passed through.
`newId` is the auto-increment id assigned by the store. -/
def recordsCreate (record : Record) (newId : ℤ) : RecordRow where
  id := newId
  date := orNullS record.date
  hour := orNullS record.hour
  site := orNullS record.site
  form_type := orNullS record.form_type
  model_code := orNullS record.model_code
  input_L_mm := orNullQ record.input_L_mm
  input_W_mm := orNullQ record.input_W_mm
  input_T_mm := orNullQ record.input_T_mm
  input_count := orNullQ record.input_count
  output_L_mm := orNullQ record.output_L_mm
  output_W_mm := orNullQ record.output_W_mm
  output_T_mm := orNullQ record.output_T_mm
  output_count := orNullQ record.output_count
  qc_ok := orNullQ record.qc_ok
  qc_ng := orNullQ record.qc_ng
  operator_id := orNullS record.operator_id
  batch_no := orNullS record.batch_no
  line_id := orNullS record.line_id
  notes := orNullS record.notes
  img_ref := orNullS record.img_ref
  source_img_id := orNullS record.source_img_id
  model_version := orNullS record.model_version
  verified := some (orDefaultQ record.verified 0)
  created_at := record.created_at

/-- Embeds `ImagesRepository.create`: the row inserted for a given entity. -/
def imagesCreate (image : Image) : ImageRow where
  img_id := image.img_id
  uri := image.uri
  rectified_uri := orNullS image.rectified_uri
  template_id := orNullS image.template_id
  homography := orNullS image.homography
  blur := orNullQ image.blur
  glare := orNullQ image.glare
  created_at := image.created_at

/-- Embeds `RecogEventsRepository.create`: the row inserted for a given entity;
`now` stands for `new Date().toISOString()`, the default used when
`event.created_at` is falsy. -/
def recogEventsCreate (event : RecogEvent) (newId : ℤ) (now : String) : RecogEventRow where
  id := newId
  img_id := orNullS event.img_id
  field_id := orNullS event.field_id
  raw_text := orNullS event.raw_text
  value := orNullS event.value
  conf := orNullQ event.conf
  corrected := some (orDefaultQ event.corrected 0)
  created_at := some (orDefaultS event.created_at now)

/-- C2 counterexample: `RecordsRepository.create` with `qc_ok = 0` stores
`NULL`, not `0` — the `record.qc_ok || null` marshalling coerces the falsy
value `0` to `NULL`. -/
theorem recordsCreate_zero_counterexample :
    (recordsCreate { qc_ok := some 0, created_at := "2024-01-01" } 1).qc_ok = none
    ∧ (recordsCreate { qc_ok := some 0, created_at := "2024-01-01" } 1).qc_ok
        ≠ some 0 := by
  constructor
  · rfl
  · intro h
    simp [recordsCreate, orNullQ, truthyQ] at h

/-- C2 amended: omitted optional fields are persisted as `NULL`; but a field
present with a falsy value (numeric `0`, empty string) is also coerced to
`NULL` by the `value || null` marshalling, so "zero" and "unknown" are not
distinguishable after insert; only truthy present values are persisted
as given.  Shown for the cited creates: `qc_ok`, `qc_ng`, `notes`, `date` of
`RecordsRepository.create`, `blur` of `ImagesRepository.create`, `conf` of
`RecogEventsRepository.create`. -/
theorem create_marshalling_nulls :
    (∀ (record : Record) (newId : ℤ),
      ((recordsCreate record newId).qc_ok = none
          ↔ record.qc_ok = none ∨ record.qc_ok = some 0)
      ∧ (∀ q : ℚ, q ≠ 0 → record.qc_ok = some q →
          (recordsCreate record newId).qc_ok = some q)
      ∧ ((recordsCreate record newId).qc_ng = none
          ↔ record.qc_ng = none ∨ record.qc_ng = some 0)
      ∧ ((recordsCreate record newId).notes = none
          ↔ record.notes = none ∨ record.notes = some (""))
      ∧ (∀ s : String, s ≠ "" → record.notes = some s →
          (recordsCreate record newId).notes = some s)
      ∧ ((recordsCreate record newId).date = none
          ↔ record.date = none ∨ record.date = some ("")))
    ∧ (∀ image : Image,
        (imagesCreate image).blur = none
          ↔ image.blur = none ∨ image.blur = some 0)
    ∧ (∀ (event : RecogEvent) (newId : ℤ) (now : String),
        (recogEventsCreate event newId now).conf = none
          ↔ event.conf = none ∨ event.conf = some 0) := by
  have hq : ∀ v : Option ℚ, orNullQ v = none ↔ v = none ∨ v = some 0 := by
    intro v
    cases v with
    | none => simp [orNullQ, truthyQ]
    | some q =>
      by_cases h0 : q = 0 <;> simp [orNullQ, truthyQ, h0]
  have hs : ∀ v : Option String, orNullS v = none ↔ v = none ∨ v = some ("") := by
    intro v
    cases v with
    | none => simp [orNullS, truthyS]
    | some s =>
      by_cases h0 : s = "" <;> simp [orNullS, truthyS, h0]
  refine ⟨fun record newId => ⟨?_, ?_, ?_, ?_, ?_, ?_⟩, fun image => ?_,
    fun event newId now => ?_⟩
  · exact hq record.qc_ok
  · intro q hq0 hval
    simp [recordsCreate, orNullQ, truthyQ, hval, hq0]
  · exact hq record.qc_ng
  · exact hs record.notes
  · intro s hs0 hval
    simp [recordsCreate, orNullS, truthyS, hval, hs0]
  · exact hs record.date
  · exact hq image.blur
  · exact hq event.conf

/-- Witness for C2's amended theorem at concrete inputs. -/
theorem create_marshalling_nulls_witness :
    (recordsCreate { qc_ok := some 7, created_at := "2024-01-01" } 1).qc_ok = some 7
    ∧ (recordsCreate { notes := some ("n"), created_at := "2024-01-01" } 1).notes
        = some ("n") := by
  constructor
  · exact (create_marshalling_nulls.1
      { qc_ok := some 7, created_at := "2024-01-01" } 1).2.1 7 (by norm_num) rfl
  · exact (create_marshalling_nulls.1
      { notes := some ("n"), created_at := "2024-01-01" } 1).2.2.2.2.1 ("n")
      (by decide) rfl

/-- SQL comparison `v > t` on a nullable numeric column: not satisfied by
`NULL`. -/
def sqlGt (v : Option ℚ) (t : ℚ) : Bool :=
  match v with
  | some x => t < x
  | none => false

/-- SQL comparison `v < t` on a nullable numeric column: not satisfied by
`NULL`. -/
def sqlLt (v : Option ℚ) (t : ℚ) : Bool :=
  match v with
  | some x => x < t
  | none => false

/-- SQL ordering on a nullable text column: `NULL` sorts below every string. -/
def optLeS : Option String → Option String → Bool
  | none, _ => true
  | some _, none => false
  | some a, some b => a ≤ b

/-- SQL ordering on a nullable numeric column: `NULL` sorts below every
number. -/
def optLeQ : Option ℚ → Option ℚ → Bool
  | none, _ => true
  | some _, none => false
  | some a, some b => a ≤ b

/-- Relation for `ORDER BY created_at DESC` on the `images` table. -/
def imageCreatedDesc (a b : ImageRow) : Prop := b.created_at ≤ a.created_at

/-- Relation for `ORDER BY created_at DESC` on the `records` table. -/
def recordCreatedDesc (a b : RecordRow) : Prop := b.created_at ≤ a.created_at

/-- Relation for `ORDER BY created_at DESC` on the `recog_events` table (nullable column,
`NULL` last). -/
def eventCreatedDesc (a b : RecogEventRow) : Prop :=
  optLeS b.created_at a.created_at = true

/-- Relation for `ORDER BY conf ASC` on the `recog_events` table (nullable column, `NULL`
first). -/
def eventConfAsc (a b : RecogEventRow) : Prop := optLeQ a.conf b.conf = true

/-- Relation for `ORDER BY template_id` on the `templates` table. -/
def templateIdAsc (a b : TemplateRow) : Prop := a.template_id ≤ b.template_id

instance : DecidableRel imageCreatedDesc := fun a b =>
  inferInstanceAs (Decidable (b.created_at ≤ a.created_at))

instance : DecidableRel recordCreatedDesc := fun a b =>
  inferInstanceAs (Decidable (b.created_at ≤ a.created_at))

instance : DecidableRel eventCreatedDesc := fun a b =>
  inferInstanceAs (Decidable (optLeS b.created_at a.created_at = true))

instance : DecidableRel eventConfAsc := fun a b =>
  inferInstanceAs (Decidable (optLeQ a.conf b.conf = true))

instance : DecidableRel templateIdAsc := fun a b =>
  inferInstanceAs (Decidable (a.template_id ≤ b.template_id))

theorem optLeS_total (x y : Option String) : optLeS x y = true ∨ optLeS y x = true := by
  cases x <;> cases y <;> simp [optLeS]
  exact le_total _ _

theorem optLeS_trans {x y z : Option String} (hxy : optLeS x y = true)
    (hyz : optLeS y z = true) : optLeS x z = true := by
  cases x <;> cases y <;> cases z <;> simp_all [optLeS]
  exact le_trans hxy hyz

theorem optLeQ_total (x y : Option ℚ) : optLeQ x y = true ∨ optLeQ y x = true := by
  cases x <;> cases y <;> simp [optLeQ]
  exact le_total _ _

theorem optLeQ_trans {x y z : Option ℚ} (hxy : optLeQ x y = true)
    (hyz : optLeQ y z = true) : optLeQ x z = true := by
  cases x <;> cases y <;> cases z <;> simp_all [optLeQ]
  exact le_trans hxy hyz

instance : IsTotal ImageRow imageCreatedDesc := ⟨fun _ _ => le_total _ _⟩

instance : IsTrans ImageRow imageCreatedDesc :=
  ⟨fun _ _ _ hab hbc => le_trans hbc hab⟩

instance : IsTotal RecordRow recordCreatedDesc := ⟨fun _ _ => le_total _ _⟩

instance : IsTrans RecordRow recordCreatedDesc :=
  ⟨fun _ _ _ hab hbc => le_trans hbc hab⟩

instance : IsTotal RecogEventRow eventCreatedDesc :=
  ⟨fun a b => optLeS_total b.created_at a.created_at⟩

instance : IsTrans RecogEventRow eventCreatedDesc :=
  ⟨fun _ _ _ hab hbc => optLeS_trans hbc hab⟩

instance : IsTotal RecogEventRow eventConfAsc :=
  ⟨fun a b => optLeQ_total a.conf b.conf⟩

instance : IsTrans RecogEventRow eventConfAsc :=
  ⟨fun _ _ _ hab hbc => optLeQ_trans hab hbc⟩

instance : IsTotal TemplateRow templateIdAsc := ⟨fun _ _ => le_total _ _⟩

instance : IsTrans TemplateRow templateIdAsc :=
  ⟨fun _ _ _ hab hbc => le_trans hab hbc⟩

/-- SQL `LIMIT ? OFFSET ?` as built by `findAll`: the offset clause is only
emitted when a limit is present. -/
def sqlLimitOffset {α : Type} (limit offset : Option ℕ) (rows : List α) : List α :=
  match limit with
  | none => rows
  | some l =>
    match offset with
    | none => rows.take l
    | some o => (rows.drop o).take l

theorem sorted_sqlLimitOffset {α : Type} {r : α → α → Prop}
    (limit offset : Option ℕ) {rows : List α} (h : List.Sorted r rows) :
    List.Sorted r (sqlLimitOffset limit offset rows) := by
  cases limit with
  | none => exact h
  | some l =>
    cases offset with
    | none => exact h.sublist (List.take_sublist _ _)
    | some o =>
      exact h.sublist ((List.take_sublist _ _).trans (List.drop_sublist _ _))

/-- Embeds `TemplatesRepository.findAll`: `ORDER BY template_id`. -/
def templatesFindAll (table : List TemplateRow) : List TemplateRow :=
  table.insertionSort templateIdAsc

/-- Embeds `TemplatesRepository.findByVersion`: no `ORDER BY` clause in the source;
rows come back in table order. -/
def templatesFindByVersion (version : String) (table : List TemplateRow) :
    List TemplateRow :=
  table.filter (fun row => row.version == version)

/-- Embeds `ImagesRepository.findAll`: `ORDER BY created_at DESC`. -/
def imagesFindAll (table : List ImageRow) : List ImageRow :=
  table.insertionSort imageCreatedDesc

/-- Embeds `ImagesRepository.findByTemplateId`. -/
def imagesFindByTemplateId (templateId : String) (table : List ImageRow) :
    List ImageRow :=
  (table.filter (fun row => row.template_id == some templateId)).insertionSort
    imageCreatedDesc

/-- Embeds `ImagesRepository.findByDateRange`: `created_at BETWEEN ? AND ?`. -/
def imagesFindByDateRange (startDate endDate : String) (table : List ImageRow) :
    List ImageRow :=
  (table.filter (fun row =>
      decide (startDate ≤ row.created_at) && decide (row.created_at ≤ endDate))).insertionSort
    imageCreatedDesc

/-- Embeds `ImagesRepository.findWithQualityIssues`: the `WHERE` clause is
`(blur IS NOT NULL OR glare IS NOT NULL)` when no threshold is supplied and
the `OR`-join of `blur > ?` / `glare > ?` for the supplied thresholds. -/
def findWithQualityIssues (blurThreshold glareThreshold : Option ℚ)
    (table : List ImageRow) : List ImageRow :=
  let cond : ImageRow → Bool :=
    match blurThreshold, glareThreshold with
    | none, none => fun row => row.blur.isSome || row.glare.isSome
    | some bt, none => fun row => sqlGt row.blur bt
    | none, some gt => fun row => sqlGt row.glare gt
    | some bt, some gt => fun row => sqlGt row.blur bt || sqlGt row.glare gt
  (table.filter cond).insertionSort imageCreatedDesc

/-- Embeds `RecordsRepository.findAll` with optional pagination. -/
def recordsFindAll (limit offset : Option ℕ) (table : List RecordRow) :
    List RecordRow :=
  sqlLimitOffset limit offset (table.insertionSort recordCreatedDesc)

/-- Embeds `RecordsRepository.findBySourceImageId`. -/
def recordsFindBySourceImageId (sourceImgId : String) (table : List RecordRow) :
    List RecordRow :=
  (table.filter (fun row => row.source_img_id == some sourceImgId)).insertionSort
    recordCreatedDesc

/-- Embeds `RecordsRepository.findByOperator`. -/
def recordsFindByOperator (operatorId : String) (table : List RecordRow) :
    List RecordRow :=
  (table.filter (fun row => row.operator_id == some operatorId)).insertionSort
    recordCreatedDesc

/-- Embeds `RecordsRepository.findByBatchNo`. -/
def recordsFindByBatchNo (batchNo : String) (table : List RecordRow) :
    List RecordRow :=
  (table.filter (fun row => row.batch_no == some batchNo)).insertionSort
    recordCreatedDesc

/-- Embeds `RecordsRepository.findByDateRange`. -/
def recordsFindByDateRange (startDate endDate : String) (table : List RecordRow) :
    List RecordRow :=
  (table.filter (fun row =>
      decide (startDate ≤ row.created_at) && decide (row.created_at ≤ endDate))).insertionSort
    recordCreatedDesc

/-- Embeds `RecordsRepository.findUnverified`: `WHERE verified = 0` (not satisfied by
`NULL`). -/
def recordsFindUnverified (table : List RecordRow) : List RecordRow :=
  (table.filter (fun row => row.verified == some 0)).insertionSort recordCreatedDesc

/-- Embeds `RecogEventsRepository.findAll` with optional pagination. -/
def recogEventsFindAll (limit offset : Option ℕ) (table : List RecogEventRow) :
    List RecogEventRow :=
  sqlLimitOffset limit offset (table.insertionSort eventCreatedDesc)

/-- Embeds `RecogEventsRepository.findByImageId`. -/
def recogEventsFindByImageId (imgId : String) (table : List RecogEventRow) :
    List RecogEventRow :=
  (table.filter (fun row => row.img_id == some imgId)).insertionSort eventCreatedDesc

/-- Embeds `RecogEventsRepository.findByFieldId`. -/
def recogEventsFindByFieldId (fieldId : String) (table : List RecogEventRow) :
    List RecogEventRow :=
  (table.filter (fun row => row.field_id == some fieldId)).insertionSort
    eventCreatedDesc

/-- Embeds `RecogEventsRepository.findCorrected`: `WHERE corrected = 1`. -/
def recogEventsFindCorrected (table : List RecogEventRow) : List RecogEventRow :=
  (table.filter (fun row => row.corrected == some 1)).insertionSort eventCreatedDesc

/-- The default `threshold` argument of `findLowConfidence`. -/
def defaultLowConfThreshold : ℚ := 0.8

/-- Embeds `RecogEventsRepository.findLowConfidence`: `WHERE conf < ?` and — unlike
every other finder — `ORDER BY conf ASC`. -/
def recogEventsFindLowConfidence (threshold : ℚ) (table : List RecogEventRow) :
    List RecogEventRow :=
  (table.filter (fun row => sqlLt row.conf threshold)).insertionSort eventConfAsc

theorem sqlGt_iff (v : Option ℚ) (t : ℚ) :
    sqlGt v t = true ↔ ∃ x, v = some x ∧ t < x := by
  cases v <;> simp [sqlGt]

/-- C6: `findWithQualityIssues` with no thresholds returns exactly the rows
where `blur` or `glare` is non-`NULL`; with both thresholds it returns
exactly the union (OR) of the rows whose `blur` exceeds the blur threshold
and the rows whose `glare` exceeds the glare threshold. -/
theorem findWithQualityIssues_spec :
    ∀ (table : List ImageRow) (row : ImageRow),
      (row ∈ findWithQualityIssues none none table
        ↔ row ∈ table ∧ (row.blur ≠ none ∨ row.glare ≠ none))
      ∧ (∀ bt gt : ℚ,
          row ∈ findWithQualityIssues (some bt) (some gt) table
            ↔ row ∈ table ∧
              ((∃ b, row.blur = some b ∧ bt < b)
                ∨ (∃ g, row.glare = some g ∧ gt < g))) := by
  intro table row
  constructor
  · rw [findWithQualityIssues, List.mem_insertionSort, List.mem_filter]
    cases hb : row.blur <;> cases hg : row.glare <;> simp [hb, hg]
  · intro bt gt
    rw [findWithQualityIssues, List.mem_insertionSort, List.mem_filter]
    simp [sqlGt_iff]

/-- C7 counterexample: `findLowConfidence` does not return rows newest-first
by `created_at`; it orders by ascending confidence.  With an older event of
confidence `1` and a newer event of confidence `3`, both below the
threshold `5`, the older row comes back first. -/
theorem findLowConfidence_order_counterexample :
    ¬ List.Sorted eventCreatedDesc
      (recogEventsFindLowConfidence 5
        [⟨1, none, none, none, none, some 3, some 0, some ("2024-01-02")⟩,
         ⟨2, none, none, none, none, some 1, some 0, some ("2024-01-01")⟩]) := by
  have h1 : recogEventsFindLowConfidence 5
      [⟨1, none, none, none, none, some 3, some 0, some ("2024-01-02")⟩,
       ⟨2, none, none, none, none, some 1, some 0, some ("2024-01-01")⟩]
      = [⟨2, none, none, none, none, some 1, some 0, some ("2024-01-01")⟩,
         ⟨1, none, none, none, none, some 3, some 0, some ("2024-01-02")⟩] := by
    norm_num [recogEventsFindLowConfidence, sqlLt, eventConfAsc, optLeQ,
      List.insertionSort, List.orderedInsert]
  rw [h1]
  intro hs
  have h2 := List.rel_of_sorted_cons hs
    ⟨1, none, none, none, none, some 3, some 0, some ("2024-01-02")⟩ (by simp)
  rw [eventCreatedDesc, optLeS] at h2
  have h3 : ("2024-01-02" : String) ≤ "2024-01-01" := of_decide_eq_true h2
  rw [String.le_iff_toList_le] at h3
  revert h3
  decide

/-- C7 amended: `findAll` returns rows newest-first by `created_at` for
Images, Records and RecognitionEvents (also under `LIMIT`/`OFFSET`) and
lexicographically by `template_id` for Templates, and the domain finders by
foreign key, date range, operator, batch and verification/correction status
share the newest-first ordering — but `findLowConfidence` instead returns its
rows ordered by ascending confidence (and `findByVersion` applies no
ordering). -/
theorem finders_ordering :
    (∀ table, List.Sorted templateIdAsc (templatesFindAll table))
    ∧ (∀ table, List.Sorted imageCreatedDesc (imagesFindAll table))
    ∧ (∀ limit offset table,
        List.Sorted recordCreatedDesc (recordsFindAll limit offset table))
    ∧ (∀ limit offset table,
        List.Sorted eventCreatedDesc (recogEventsFindAll limit offset table))
    ∧ (∀ t table, List.Sorted imageCreatedDesc (imagesFindByTemplateId t table))
    ∧ (∀ s e table, List.Sorted imageCreatedDesc (imagesFindByDateRange s e table))
    ∧ (∀ bt gt table,
        List.Sorted imageCreatedDesc (findWithQualityIssues bt gt table))
    ∧ (∀ s table, List.Sorted recordCreatedDesc (recordsFindBySourceImageId s table))
    ∧ (∀ s table, List.Sorted recordCreatedDesc (recordsFindByOperator s table))
    ∧ (∀ s table, List.Sorted recordCreatedDesc (recordsFindByBatchNo s table))
    ∧ (∀ s e table, List.Sorted recordCreatedDesc (recordsFindByDateRange s e table))
    ∧ (∀ table, List.Sorted recordCreatedDesc (recordsFindUnverified table))
    ∧ (∀ s table, List.Sorted eventCreatedDesc (recogEventsFindByImageId s table))
    ∧ (∀ s table, List.Sorted eventCreatedDesc (recogEventsFindByFieldId s table))
    ∧ (∀ table, List.Sorted eventCreatedDesc (recogEventsFindCorrected table))
    ∧ (∀ th table, List.Sorted eventConfAsc (recogEventsFindLowConfidence th table)) := by
  refine ⟨fun table => ?_, fun table => ?_, fun limit offset table => ?_,
    fun limit offset table => ?_, fun t table => ?_, fun s e table => ?_,
    fun bt gt table => ?_, fun s table => ?_, fun s table => ?_, fun s table => ?_,
    fun s e table => ?_, fun table => ?_, fun s table => ?_, fun s table => ?_,
    fun table => ?_, fun th table => ?_⟩
  · exact List.sorted_insertionSort _ _
  · exact List.sorted_insertionSort _ _
  · exact sorted_sqlLimitOffset _ _ (List.sorted_insertionSort _ _)
  · exact sorted_sqlLimitOffset _ _ (List.sorted_insertionSort _ _)
  · exact List.sorted_insertionSort _ _
  · exact List.sorted_insertionSort _ _
  · exact List.sorted_insertionSort _ _
  · exact List.sorted_insertionSort _ _
  · exact List.sorted_insertionSort _ _
  · exact List.sorted_insertionSort _ _
  · exact List.sorted_insertionSort _ _
  · exact List.sorted_insertionSort _ _
  · exact List.sorted_insertionSort _ _
  · exact List.sorted_insertionSort _ _
  · exact List.sorted_insertionSort _ _
  · exact List.sorted_insertionSort _ _

/-- A present update-payload entry overwrites a nullable column, an absent
one keeps it. -/
def patched {τ : Type} (entry old : Option τ) : Option τ :=
  match entry with
  | some v => some v
  | none => old

/-- Embeds `Partial<Record>`: the update payload of `RecordsRepository.update`; a
`none` field is absent from the payload. -/
structure RecordPatch where
  id : Option ℤ := none
  date : Option String := none
  hour : Option String := none
  site : Option String := none
  form_type : Option String := none
  model_code : Option String := none
  input_L_mm : Option ℚ := none
  input_W_mm : Option ℚ := none
  input_T_mm : Option ℚ := none
  input_count : Option ℚ := none
  output_L_mm : Option ℚ := none
  output_W_mm : Option ℚ := none
  output_T_mm : Option ℚ := none
  output_count : Option ℚ := none
  qc_ok : Option ℚ := none
  qc_ng : Option ℚ := none
  operator_id : Option String := none
  batch_no : Option String := none
  line_id : Option String := none
  notes : Option String := none
  img_ref : Option String := none
  source_img_id : Option String := none
  model_version : Option String := none
  verified : Option ℚ := none
  created_at : Option String := none
  deriving DecidableEq, Repr

/-- The `fields` list built by `RecordsRepository.update` is empty: no
payload entry besides `id` is present. -/
def RecordPatch.isEmpty (p : RecordPatch) : Bool :=
  p.date.isNone && p.hour.isNone && p.site.isNone && p.form_type.isNone &&
  p.model_code.isNone && p.input_L_mm.isNone && p.input_W_mm.isNone &&
  p.input_T_mm.isNone && p.input_count.isNone && p.output_L_mm.isNone &&
  p.output_W_mm.isNone && p.output_T_mm.isNone && p.output_count.isNone &&
  p.qc_ok.isNone && p.qc_ng.isNone && p.operator_id.isNone && p.batch_no.isNone &&
  p.line_id.isNone && p.notes.isNone && p.img_ref.isNone && p.source_img_id.isNone &&
  p.model_version.isNone && p.verified.isNone && p.created_at.isNone

/-- Effect of the generated `UPDATE records SET ... WHERE id = ?` on one
matching row: exactly the present payload fields are written (`id` keys are
skipped by the source loop). -/
def applyRecordPatch (p : RecordPatch) (row : RecordRow) : RecordRow where
  id := row.id
  date := patched p.date row.date
  hour := patched p.hour row.hour
  site := patched p.site row.site
  form_type := patched p.form_type row.form_type
  model_code := patched p.model_code row.model_code
  input_L_mm := patched p.input_L_mm row.input_L_mm
  input_W_mm := patched p.input_W_mm row.input_W_mm
  input_T_mm := patched p.input_T_mm row.input_T_mm
  input_count := patched p.input_count row.input_count
  output_L_mm := patched p.output_L_mm row.output_L_mm
  output_W_mm := patched p.output_W_mm row.output_W_mm
  output_T_mm := patched p.output_T_mm row.output_T_mm
  output_count := patched p.output_count row.output_count
  qc_ok := patched p.qc_ok row.qc_ok
  qc_ng := patched p.qc_ng row.qc_ng
  operator_id := patched p.operator_id row.operator_id
  batch_no := patched p.batch_no row.batch_no
  line_id := patched p.line_id row.line_id
  notes := patched p.notes row.notes
  img_ref := patched p.img_ref row.img_ref
  source_img_id := patched p.source_img_id row.source_img_id
  model_version := patched p.model_version row.model_version
  verified := patched p.verified row.verified
  created_at := p.created_at.getD row.created_at

/-- Result of a repository mutation: whether a SQL statement was issued and
the resulting table state. -/
structure UpdateOutcome (ρ : Type) where
  issuedSql : Bool
  table : List ρ
  deriving DecidableEq, Repr

/-- Embeds `RecordsRepository.update`: returns without touching the store when the
payload has zero present fields. -/
def recordsUpdate (id : ℤ) (p : RecordPatch) (table : List RecordRow) :
    UpdateOutcome RecordRow :=
  if p.isEmpty then ⟨false, table⟩
  else ⟨true, table.map fun row => if row.id = id then applyRecordPatch p row else row⟩

/-- Embeds `Partial<RecogEvent>`: the update payload of `RecogEventsRepository.update`. -/
structure RecogEventPatch where
  id : Option ℤ := none
  img_id : Option String := none
  field_id : Option String := none
  raw_text : Option String := none
  value : Option String := none
  conf : Option ℚ := none
  corrected : Option ℚ := none
  created_at : Option String := none
  deriving DecidableEq, Repr

/-- The `fields` list built by `RecogEventsRepository.update` is empty. -/
def RecogEventPatch.isEmpty (p : RecogEventPatch) : Bool :=
  p.img_id.isNone && p.field_id.isNone && p.raw_text.isNone && p.value.isNone &&
  p.conf.isNone && p.corrected.isNone && p.created_at.isNone

/-- Effect of the generated `UPDATE recog_events SET ... WHERE id = ?` on one
matching row. -/
def applyRecogEventPatch (p : RecogEventPatch) (row : RecogEventRow) : RecogEventRow where
  id := row.id
  img_id := patched p.img_id row.img_id
  field_id := patched p.field_id row.field_id
  raw_text := patched p.raw_text row.raw_text
  value := patched p.value row.value
  conf := patched p.conf row.conf
  corrected := patched p.corrected row.corrected
  created_at := patched p.created_at row.created_at

/-- Embeds `RecogEventsRepository.update`. -/
def recogEventsUpdate (id : ℤ) (p : RecogEventPatch) (table : List RecogEventRow) :
    UpdateOutcome RecogEventRow :=
  if p.isEmpty then ⟨false, table⟩
  else ⟨true, table.map fun row => if row.id = id then applyRecogEventPatch p row else row⟩

/-- Embeds `ImagesRepository.update`: takes a full `Image` entity and
unconditionally writes all six non-key columns
(`SET uri = ?, rectified_uri = ?, template_id = ?, homography = ?, blur = ?,
glare = ?`), with the same falsy-to-`NULL` marshalling as `create`. -/
def imagesUpdate (image : Image) (table : List ImageRow) : UpdateOutcome ImageRow :=
  ⟨true, table.map fun row =>
    if row.img_id = image.img_id then
      { row with
        uri := image.uri
        rectified_uri := orNullS image.rectified_uri
        template_id := orNullS image.template_id
        homography := orNullS image.homography
        blur := orNullQ image.blur
        glare := orNullQ image.glare }
    else row⟩

/-- Embeds `TemplatesRepository.update`: takes a full `Template` entity and
unconditionally writes both non-key columns (`SET version = ?,
roi_map_json = ?`). -/
def templatesUpdate (template : TemplateRow) (table : List TemplateRow) :
    UpdateOutcome TemplateRow :=
  ⟨true, table.map fun row =>
    if row.template_id = template.template_id then
      { row with version := template.version, roi_map_json := template.roi_map_json }
    else row⟩

/-- Embeds `RecogEventsRepository.markAsCorrected`: a truthy `correctedValue` adds
`value = ?` to the `SET` clause; a falsy one (absent or `""`) only sets
`corrected = 1`. -/
def markAsCorrected (id : ℤ) (correctedValue : Option String)
    (table : List RecogEventRow) : List RecogEventRow :=
  if truthyS correctedValue then
    table.map fun row =>
      if row.id = id then { row with corrected := some 1, value := correctedValue } else row
  else
    table.map fun row =>
      if row.id = id then { row with corrected := some 1 } else row

/-- C8 counterexample: `ImagesRepository.update` is not a partial update.
The stored row has `rectified_uri = "r"` and `blur = 1`; the update payload
omits both fields, yet after the update both columns are overwritten to
`NULL` (and the operation issues a SQL statement). -/
theorem imagesUpdate_overwrite_counterexample :
    (imagesUpdate { img_id := "i", uri := "u2", created_at := "2024-01-01" }
        [⟨"i", "u", some ("r"), none, none, some 1, none, "2024-01-01"⟩]).table
      = [⟨"i", "u2", none, none, none, none, none, "2024-01-01"⟩]
    ∧ (⟨"i", "u", some ("r"), none, none, some 1, none, "2024-01-01"⟩ : ImageRow).rectified_uri
      = some ("r") := by
  constructor
  · simp [imagesUpdate, orNullS, orNullQ, truthyS, truthyQ]
  · rfl

/-- C8 amended: partial-update semantics (only fields present in the payload
are written; other columns and other rows are untouched; an empty payload
issues no SQL statement) holds for `RecordsRepository.update` and
`RecogEventsRepository.update`, but not for `ImagesRepository.update` and
`TemplatesRepository.update`, which take the full entity and unconditionally
overwrite every non-key column (with falsy optional fields coerced to
`NULL`). -/
theorem update_frame_semantics :
    (∀ (id : ℤ) (p : RecordPatch) (table : List RecordRow),
        p.isEmpty = true →
        recordsUpdate id p table = ⟨false, table⟩)
    ∧ (∀ (id : ℤ) (p : RecogEventPatch) (table : List RecogEventRow),
        p.isEmpty = true →
        recogEventsUpdate id p table = ⟨false, table⟩)
    ∧ (∀ (p : RecordPatch) (row : RecordRow),
        (applyRecordPatch p row).id = row.id
        ∧ (p.qc_ok = none → (applyRecordPatch p row).qc_ok = row.qc_ok)
        ∧ (p.qc_ng = none → (applyRecordPatch p row).qc_ng = row.qc_ng)
        ∧ (p.notes = none → (applyRecordPatch p row).notes = row.notes)
        ∧ (p.date = none → (applyRecordPatch p row).date = row.date)
        ∧ (p.verified = none → (applyRecordPatch p row).verified = row.verified)
        ∧ (p.created_at = none → (applyRecordPatch p row).created_at = row.created_at)
        ∧ (∀ q, p.qc_ok = some q → (applyRecordPatch p row).qc_ok = some q)
        ∧ (∀ s, p.notes = some s → (applyRecordPatch p row).notes = some s))
    ∧ (∀ (p : RecogEventPatch) (row : RecogEventRow),
        (applyRecogEventPatch p row).id = row.id
        ∧ (p.img_id = none → (applyRecogEventPatch p row).img_id = row.img_id)
        ∧ (p.field_id = none → (applyRecogEventPatch p row).field_id = row.field_id)
        ∧ (p.raw_text = none → (applyRecogEventPatch p row).raw_text = row.raw_text)
        ∧ (p.value = none → (applyRecogEventPatch p row).value = row.value)
        ∧ (p.conf = none → (applyRecogEventPatch p row).conf = row.conf)
        ∧ (p.corrected = none → (applyRecogEventPatch p row).corrected = row.corrected)
        ∧ (p.created_at = none → (applyRecogEventPatch p row).created_at = row.created_at)
        ∧ (∀ v, p.value = some v → (applyRecogEventPatch p row).value = some v))
    ∧ (∀ (id : ℤ) (p : RecordPatch) (table : List RecordRow) (i : ℕ) (row : RecordRow),
        table[i]? = some row → row.id ≠ id →
        (recordsUpdate id p table).table[i]? = some row)
    ∧ (∀ (id : ℤ) (p : RecogEventPatch) (table : List RecogEventRow) (i : ℕ)
          (row : RecogEventRow),
        table[i]? = some row → row.id ≠ id →
        (recogEventsUpdate id p table).table[i]? = some row)
    ∧ (∀ (image : Image) (table : List ImageRow),
        (imagesUpdate image table).issuedSql = true
        ∧ (∀ (i : ℕ) (row : ImageRow), table[i]? = some row →
            row.img_id = image.img_id →
            (imagesUpdate image table).table[i]?
              = some { row with
                  uri := image.uri
                  rectified_uri := orNullS image.rectified_uri
                  template_id := orNullS image.template_id
                  homography := orNullS image.homography
                  blur := orNullQ image.blur
                  glare := orNullQ image.glare }))
    ∧ (∀ (template : TemplateRow) (table : List TemplateRow),
        (templatesUpdate template table).issuedSql = true) := by
  refine ⟨fun id p table hp => ?_, fun id p table hp => ?_, fun p row => ?_,
    fun p row => ?_, fun id p table i row hrow hid => ?_,
    fun id p table i row hrow hid => ?_, fun image table => ⟨rfl, ?_⟩,
    fun template table => rfl⟩
  · simp [recordsUpdate, hp]
  · simp [recogEventsUpdate, hp]
  · refine ⟨rfl, fun h => ?_, fun h => ?_, fun h => ?_, fun h => ?_, fun h => ?_,
      fun h => ?_, fun q h => ?_, fun s h => ?_⟩ <;>
      simp [applyRecordPatch, patched, h]
  · refine ⟨rfl, fun h => ?_, fun h => ?_, fun h => ?_, fun h => ?_, fun h => ?_,
      fun h => ?_, fun h => ?_, fun v h => ?_⟩ <;>
      simp [applyRecogEventPatch, patched, h]
  · rw [recordsUpdate]
    by_cases hp : p.isEmpty
    · simp [hp, hrow]
    · simp [hp, List.getElem?_map, hrow, hid]
  · rw [recogEventsUpdate]
    by_cases hp : p.isEmpty
    · simp [hp, hrow]
    · simp [hp, List.getElem?_map, hrow, hid]
  · intro i row hrow hmatch
    simp [imagesUpdate, List.getElem?_map, hrow, hmatch]

/-- Witness for C8's amended theorem at concrete inputs. -/
theorem update_frame_semantics_witness :
    recordsUpdate 1 {} [] = ⟨false, []⟩
    ∧ (applyRecogEventPatch { value := some ("v") }
        ⟨1, none, none, none, none, some 1, some 0, none⟩).value = some ("v") := by
  constructor
  · exact update_frame_semantics.1 1 {} [] rfl
  · exact (update_frame_semantics.2.2.2.1 { value := some ("v") }
      ⟨1, none, none, none, none, some 1, some 0, none⟩).2.2.2.2.2.2.2.2 ("v") rfl

/-- C10: `markAsCorrected` sets `corrected` to `1` on the addressed row; the
`value` column is overwritten only for a non-empty `correctedValue` (the
empty string behaves like an omitted argument and leaves the stored value
unchanged); every other column, and every other row, is unchanged. -/
theorem markAsCorrected_spec :
    ∀ (id : ℤ) (v : Option String) (table : List RecogEventRow),
      (markAsCorrected id v table).length = table.length
      ∧ (∀ (i : ℕ) (row : RecogEventRow), table[i]? = some row →
          (row.id ≠ id → (markAsCorrected id v table)[i]? = some row)
          ∧ (row.id = id →
              ∃ row', (markAsCorrected id v table)[i]? = some row'
                ∧ row'.id = row.id
                ∧ row'.corrected = some 1
                ∧ row'.img_id = row.img_id
                ∧ row'.field_id = row.field_id
                ∧ row'.raw_text = row.raw_text
                ∧ row'.conf = row.conf
                ∧ row'.created_at = row.created_at
                ∧ ((v = none ∨ v = some ("")) → row'.value = row.value)
                ∧ (∀ s, s ≠ "" → v = some s → row'.value = some s))) := by
  intro id v table
  constructor
  · rw [markAsCorrected]
    by_cases hv : truthyS v <;> simp [hv]
  · intro i row hrow
    constructor
    · intro hid
      rw [markAsCorrected]
      by_cases hv : truthyS v <;> simp [hv, List.getElem?_map, hrow, hid]
    · intro hid
      rw [markAsCorrected]
      by_cases hv : truthyS v
      · rw [if_pos hv]
        refine ⟨{ row with corrected := some 1, value := v }, ?_, rfl, rfl, rfl,
          rfl, rfl, rfl, rfl, fun hfal => ?_, fun s hs hv' => ?_⟩
        · rw [List.getElem?_map, hrow]
          simp [hid]
        · rcases hfal with h | h <;> simp [h, truthyS] at hv
        · exact hv'
      · rw [if_neg hv]
        refine ⟨{ row with corrected := some 1 }, ?_, rfl, rfl, rfl,
          rfl, rfl, rfl, rfl, fun _ => rfl, fun s hs hv' => ?_⟩
        · rw [List.getElem?_map, hrow]
          simp [hid]
        · rw [hv'] at hv
          simp [truthyS, hs] at hv

/-- Witness for C10 at concrete inputs. -/
theorem markAsCorrected_spec_witness :
    (markAsCorrected 1 (some ("")) [⟨1, none, none, none, some ("old"), some 1, some 0, none⟩]).length = 1
    ∧ (markAsCorrected 1 none [⟨2, none, none, none, none, none, some 0, none⟩])[0]?
        = some ⟨2, none, none, none, none, none, some 0, none⟩ := by
  constructor
  · exact (markAsCorrected_spec 1 (some (""))
      [⟨1, none, none, none, some ("old"), some 1, some 0, none⟩]).1
  · exact ((markAsCorrected_spec 1 none
      [⟨2, none, none, none, none, none, some 0, none⟩]).2 0
      ⟨2, none, none, none, none, none, some 0, none⟩ rfl).1 (by decide)

/-- Accumulator of the SQL aggregate scan of `getConfidenceStats`. -/
structure ConfAggState where
  cnt : ℕ
  sumConf : ℚ
  minConf : Option ℚ
  maxConf : Option ℚ
  correctedCnt : ℕ
  deriving DecidableEq, Repr

/-- One row's contribution to `AVG(COALESCE(conf, 0))`,
`MIN(COALESCE(conf, 0))`, `MAX(COALESCE(conf, 0))`, `COUNT(*)` and
`SUM(CASE WHEN corrected = 1 THEN 1 ELSE 0 END)`: `COALESCE` replaces a
`NULL` confidence by `0` before the aggregate sees it. -/
def confAggStep (s : ConfAggState) (row : RecogEventRow) : ConfAggState where
  cnt := s.cnt + 1
  sumConf := s.sumConf + row.conf.getD 0
  minConf := some (match s.minConf with
    | none => row.conf.getD 0
    | some m => min m (row.conf.getD 0))
  maxConf := some (match s.maxConf with
    | none => row.conf.getD 0
    | some m => max m (row.conf.getD 0))
  correctedCnt := s.correctedCnt + (if row.corrected == some 1 then 1 else 0)

/-- The single result row of `getConfidenceStats`; the aggregates are `NULL`
(`none`) on an empty table, as in SQL. -/
structure ConfidenceStatsRow where
  avg_confidence : Option ℚ
  min_confidence : Option ℚ
  max_confidence : Option ℚ
  total_events : ℕ
  corrected_events : ℕ
  deriving DecidableEq, Repr

/-- Embeds `RecogEventsRepository.getConfidenceStats`. -/
def getConfidenceStats (table : List RecogEventRow) : ConfidenceStatsRow :=
  let s := table.foldl confAggStep ⟨0, 0, none, none, 0⟩
  { avg_confidence := if s.cnt = 0 then none else some (s.sumConf / s.cnt)
    min_confidence := s.minConf
    max_confidence := s.maxConf
    total_events := s.cnt
    corrected_events := s.correctedCnt }

/-- The `WHERE created_at BETWEEN ? AND ?` row selection of
`getStatsByDateRange`. -/
def recordsInRange (startDate endDate : String) (table : List RecordRow) :
    List RecordRow :=
  table.filter fun row =>
    decide (startDate ≤ row.created_at) && decide (row.created_at ≤ endDate)

/-- Accumulator of the SQL aggregate scan of `getStatsByDateRange`. -/
structure RecordAggState where
  cnt : ℕ
  verifiedCnt : ℕ
  sumQcOk : ℚ
  sumQcNg : ℚ
  deriving DecidableEq, Repr

/-- One row's contribution to `COUNT(*)`,
`SUM(CASE WHEN verified = 1 THEN 1 ELSE 0 END)`, `SUM(COALESCE(qc_ok, 0))`
and `SUM(COALESCE(qc_ng, 0))`. -/
def recordAggStep (s : RecordAggState) (row : RecordRow) : RecordAggState where
  cnt := s.cnt + 1
  verifiedCnt := s.verifiedCnt + (if row.verified == some 1 then 1 else 0)
  sumQcOk := s.sumQcOk + row.qc_ok.getD 0
  sumQcNg := s.sumQcNg + row.qc_ng.getD 0

/-- The single result row of `getStatsByDateRange`; `SUM` aggregates are
`NULL` (`none`) when no row is selected, `COUNT(*)` is `0`. -/
structure RecordStatsRow where
  total_records : ℕ
  verified_records : Option ℕ
  total_qc_ok : Option ℚ
  total_qc_ng : Option ℚ
  deriving DecidableEq, Repr

/-- Embeds `RecordsRepository.getStatsByDateRange`. -/
def getStatsByDateRange (startDate endDate : String) (table : List RecordRow) :
    RecordStatsRow :=
  let s := (recordsInRange startDate endDate table).foldl recordAggStep ⟨0, 0, 0, 0⟩
  { total_records := s.cnt
    verified_records := if s.cnt = 0 then none else some s.verifiedCnt
    total_qc_ok := if s.cnt = 0 then none else some s.sumQcOk
    total_qc_ng := if s.cnt = 0 then none else some s.sumQcNg }

/-- States that `m` is a least element of the list. -/
def isLeastOf (m : ℚ) (l : List ℚ) : Prop := m ∈ l ∧ ∀ x ∈ l, m ≤ x

/-- States that `m` is a greatest element of the list. -/
def isGreatestOf (m : ℚ) (l : List ℚ) : Prop := m ∈ l ∧ ∀ x ∈ l, x ≤ m

theorem foldl_min_least (cs : List ℚ) : ∀ c : ℚ, isLeastOf (cs.foldl min c) (c :: cs) := by
  induction cs with
  | nil => exact fun c => ⟨List.mem_singleton_self c, by simp⟩
  | cons h t ih =>
    intro c
    obtain ⟨hmem, hle⟩ := ih (min c h)
    constructor
    · rw [List.foldl_cons]
      rcases List.mem_cons.mp hmem with he | ht
      · rcases min_choice c h with hc | hc <;> (rw [he, hc]; simp)
      · exact List.mem_cons_of_mem _ (List.mem_cons_of_mem _ ht)
    · intro x hx
      have hm : t.foldl min (min c h) ≤ min c h := hle _ (List.mem_cons_self _ _)
      rcases List.mem_cons.mp hx with he | hx'
      · subst he
        exact le_trans hm (min_le_left _ _)
      · rcases List.mem_cons.mp hx' with he | hx''
        · subst he
          exact le_trans hm (min_le_right _ _)
        · exact hle _ (List.mem_cons_of_mem _ hx'')

theorem foldl_max_greatest (cs : List ℚ) :
    ∀ c : ℚ, isGreatestOf (cs.foldl max c) (c :: cs) := by
  induction cs with
  | nil => exact fun c => ⟨List.mem_singleton_self c, by simp⟩
  | cons h t ih =>
    intro c
    obtain ⟨hmem, hle⟩ := ih (max c h)
    constructor
    · rw [List.foldl_cons]
      rcases List.mem_cons.mp hmem with he | ht
      · rcases max_choice c h with hc | hc <;> (rw [he, hc]; simp)
      · exact List.mem_cons_of_mem _ (List.mem_cons_of_mem _ ht)
    · intro x hx
      have hm : max c h ≤ t.foldl max (max c h) := hle _ (List.mem_cons_self _ _)
      rcases List.mem_cons.mp hx with he | hx'
      · subst he
        exact le_trans (le_max_left _ _) hm
      · rcases List.mem_cons.mp hx' with he | hx''
        · subst he
          exact le_trans (le_max_right _ _) hm
        · exact hle _ (List.mem_cons_of_mem _ hx'')

theorem confAgg_foldl (table : List RecogEventRow) :
    ∀ s : ConfAggState,
      (table.foldl confAggStep s).cnt = s.cnt + table.length
      ∧ (table.foldl confAggStep s).sumConf
          = s.sumConf + (table.map fun row => row.conf.getD 0).sum
      ∧ (table.foldl confAggStep s).correctedCnt
          = s.correctedCnt + (table.filter fun row => row.corrected == some 1).length
      ∧ (∀ m0, s.minConf = some m0 →
          (table.foldl confAggStep s).minConf
            = some ((table.map fun row => row.conf.getD 0).foldl min m0))
      ∧ (∀ m0, s.maxConf = some m0 →
          (table.foldl confAggStep s).maxConf
            = some ((table.map fun row => row.conf.getD 0).foldl max m0)) := by
  induction table with
  | nil => intro s; refine ⟨by simp, by simp, by simp, fun m0 h => by simpa, fun m0 h => by simpa⟩
  | cons head tail ih =>
    intro s
    obtain ⟨h1, h2, h3, h4, h5⟩ := ih (confAggStep s head)
    refine ⟨?_, ?_, ?_, ?_, ?_⟩
    · rw [List.foldl_cons, h1]
      simp [confAggStep]
      omega
    · rw [List.foldl_cons, h2]
      simp [confAggStep]
      ring
    · rw [List.foldl_cons, h3]
      by_cases hc : head.corrected == some 1 <;> (simp [confAggStep, hc]; try omega)
    · intro m0 hm0
      rw [List.foldl_cons, h4 (min m0 (head.conf.getD 0)) (by simp [confAggStep, hm0])]
      simp
    · intro m0 hm0
      rw [List.foldl_cons, h5 (max m0 (head.conf.getD 0)) (by simp [confAggStep, hm0])]
      simp

theorem recordAgg_foldl (rows : List RecordRow) :
    ∀ s : RecordAggState,
      (rows.foldl recordAggStep s).cnt = s.cnt + rows.length
      ∧ (rows.foldl recordAggStep s).sumQcOk
          = s.sumQcOk + (rows.map fun row => row.qc_ok.getD 0).sum
      ∧ (rows.foldl recordAggStep s).sumQcNg
          = s.sumQcNg + (rows.map fun row => row.qc_ng.getD 0).sum
      ∧ (rows.foldl recordAggStep s).verifiedCnt
          = s.verifiedCnt + (rows.filter fun row => row.verified == some 1).length := by
  induction rows with
  | nil => intro s; refine ⟨by simp, by simp, by simp, by simp⟩
  | cons head tail ih =>
    intro s
    obtain ⟨h1, h2, h3, h4⟩ := ih (recordAggStep s head)
    refine ⟨?_, ?_, ?_, ?_⟩
    · rw [List.foldl_cons, h1]
      simp [recordAggStep]
      omega
    · rw [List.foldl_cons, h2]
      simp [recordAggStep]
      ring
    · rw [List.foldl_cons, h3]
      simp [recordAggStep]
      ring
    · rw [List.foldl_cons, h4]
      by_cases hv : head.verified == some 1 <;> (simp [recordAggStep, hv]; try omega)

/-- C3 counterexample: over stored confidences `[0.9, NULL, 0.4, 0.2]` the
average returned by `getConfidenceStats` is `(0.9 + 0 + 0.4 + 0.2)/4 = 0.375`
— the `NULL` is coalesced to `0` and included — not `(0.9 + 0.4 + 0.2)/3`. -/
theorem getConfidenceStats_avg_counterexample :
    (getConfidenceStats
        [⟨1, none, none, none, none, some (0.9 : ℚ), some 0, none⟩,
         ⟨2, none, none, none, none, none, some 0, none⟩,
         ⟨3, none, none, none, none, some (0.4 : ℚ), some 0, none⟩,
         ⟨4, none, none, none, none, some (0.2 : ℚ), some 0, none⟩]).avg_confidence
      ≠ some (((0.9 : ℚ) + 0.4 + 0.2) / 3) := by
  have h : (getConfidenceStats
      [⟨1, none, none, none, none, some (0.9 : ℚ), some 0, none⟩,
       ⟨2, none, none, none, none, none, some 0, none⟩,
       ⟨3, none, none, none, none, some (0.4 : ℚ), some 0, none⟩,
       ⟨4, none, none, none, none, some (0.2 : ℚ), some 0, none⟩]).avg_confidence
      = some ((0.375 : ℚ)) := by
    norm_num [getConfidenceStats, confAggStep, List.foldl]
  rw [h]
  simp only [ne_eq, Option.some_inj]
  norm_num

/-- C3 amended: the aggregate queries coalesce `NULL` numeric columns to `0`
before aggregating, so `NULL`s are treated as zero in the sums — and also in
the average, the minimum and the maximum (they are *not* excluded from
those): `avg_confidence` is the sum of the coalesced confidences divided by
the total row count, and `min`/`max` range over the coalesced values.
`getStatsByDateRange` sums `COALESCE(qc_ok, 0)` and `COALESCE(qc_ng, 0)`
over the rows in range. -/
theorem aggregate_null_handling :
    (∀ table : List RecogEventRow, table ≠ [] →
        (getConfidenceStats table).avg_confidence
          = some ((table.map fun row => row.conf.getD 0).sum / table.length))
    ∧ (∀ table : List RecogEventRow, table ≠ [] →
        ∃ m, (getConfidenceStats table).min_confidence = some m
          ∧ isLeastOf m (table.map fun row => row.conf.getD 0))
    ∧ (∀ table : List RecogEventRow, table ≠ [] →
        ∃ m, (getConfidenceStats table).max_confidence = some m
          ∧ isGreatestOf m (table.map fun row => row.conf.getD 0))
    ∧ (∀ table : List RecogEventRow,
        (getConfidenceStats table).total_events = table.length
        ∧ (getConfidenceStats table).corrected_events
            = (table.filter fun row => row.corrected == some 1).length)
    ∧ (∀ (startDate endDate : String) (table : List RecordRow),
        (getStatsByDateRange startDate endDate table).total_records
          = (recordsInRange startDate endDate table).length
        ∧ (recordsInRange startDate endDate table ≠ [] →
            (getStatsByDateRange startDate endDate table).total_qc_ok
              = some ((recordsInRange startDate endDate table).map
                  fun row => row.qc_ok.getD 0).sum
            ∧ (getStatsByDateRange startDate endDate table).total_qc_ng
              = some ((recordsInRange startDate endDate table).map
                  fun row => row.qc_ng.getD 0).sum)) := by
  have hfold := confAgg_foldl
  refine ⟨fun table ht => ?_, fun table ht => ?_, fun table ht => ?_,
    fun table => ⟨?_, ?_⟩, fun startDate endDate table => ⟨?_, fun hr => ⟨?_, ?_⟩⟩⟩
  · obtain ⟨h1, h2, -, -, -⟩ := hfold table ⟨0, 0, none, none, 0⟩
    rw [getConfidenceStats]
    simp only [h1, h2, Nat.zero_add, zero_add]
    rw [if_neg (by simpa using List.length_pos_iff_ne_nil.mpr ht |>.ne')]
  · obtain ⟨head, tail, rfl⟩ := List.exists_cons_of_ne_nil ht
    obtain ⟨-, -, -, h4, -⟩ := hfold tail (confAggStep ⟨0, 0, none, none, 0⟩ head)
    rw [getConfidenceStats]
    simp only [List.foldl_cons]
    rw [h4 (head.conf.getD 0) (by simp [confAggStep])]
    refine ⟨_, rfl, ?_⟩
    simpa using foldl_min_least (tail.map (fun row => row.conf.getD 0)) (head.conf.getD 0)
  · obtain ⟨head, tail, rfl⟩ := List.exists_cons_of_ne_nil ht
    obtain ⟨-, -, -, -, h5⟩ := hfold tail (confAggStep ⟨0, 0, none, none, 0⟩ head)
    rw [getConfidenceStats]
    simp only [List.foldl_cons]
    rw [h5 (head.conf.getD 0) (by simp [confAggStep])]
    refine ⟨_, rfl, ?_⟩
    simpa using foldl_max_greatest (tail.map (fun row => row.conf.getD 0)) (head.conf.getD 0)
  · obtain ⟨h1, -, -, -, -⟩ := hfold table ⟨0, 0, none, none, 0⟩
    rw [getConfidenceStats]
    simpa using h1
  · obtain ⟨-, -, h3, -, -⟩ := hfold table ⟨0, 0, none, none, 0⟩
    rw [getConfidenceStats]
    simpa using h3
  · obtain ⟨h1, -, -, -⟩ := recordAgg_foldl (recordsInRange startDate endDate table)
      ⟨0, 0, 0, 0⟩
    rw [getStatsByDateRange]
    simpa using h1
  · obtain ⟨h1, h2, -, -⟩ := recordAgg_foldl (recordsInRange startDate endDate table)
      ⟨0, 0, 0, 0⟩
    rw [getStatsByDateRange]
    simp only [h1, h2, Nat.zero_add, zero_add]
    rw [if_neg (by simpa using List.length_pos_iff_ne_nil.mpr hr |>.ne')]
  · obtain ⟨h1, -, h3, -⟩ := recordAgg_foldl (recordsInRange startDate endDate table)
      ⟨0, 0, 0, 0⟩
    rw [getStatsByDateRange]
    simp only [h1, h3, Nat.zero_add, zero_add]
    rw [if_neg (by simpa using List.length_pos_iff_ne_nil.mpr hr |>.ne')]

/-- Witness for C3's amended theorem at a concrete input. -/
theorem aggregate_null_handling_witness :
    (getConfidenceStats [⟨1, none, none, none, none, some 1, some 0, none⟩]).avg_confidence
      = some 1 := by
  have h := aggregate_null_handling.1
    [⟨1, none, none, none, none, some 1, some 0, none⟩] (by simp)
  simpa using h

/-- The decimal digit character for a value below `10`. -/
def digitChar (d : ℕ) : Char := Char.ofNat (48 + d)

/-- Decimal digits of a natural number, most significant first, as printed
by `JSON.stringify`. -/
def natChars (n : ℕ) : List Char :=
  if n = 0 then ['0'] else (Nat.digits 10 n).reverse.map digitChar

/-- Decimal representation of an integer (`JSON.stringify` prints integral
numbers without a decimal point). -/
def intChars (n : ℤ) : List Char :=
  if n < 0 then '-' :: natChars n.natAbs else natChars n.toNat

/-- The comma join used by `JSON.stringify` for array elements. -/
def joinComma : List (List Char) → List Char
  | [] => []
  | [x] => x
  | x :: xs => x ++ ',' :: joinComma xs

/-- Printed form (`JSON.stringify`) of one matrix row. -/
def rowChars (row : List ℤ) : List Char :=
  '[' :: (joinComma (row.map intChars) ++ [']'])

/-- Printed form (`JSON.stringify`) of an integer matrix. -/
def matrixChars (m : List (List ℤ)) : List Char :=
  '[' :: (joinComma (m.map rowChars) ++ [']'])

/-- Longest leading run of decimal digit characters. -/
def takeDigits : List Char → List Char × List Char
  | [] => ([], [])
  | c :: cs =>
    if c.isDigit then
      let p := takeDigits cs
      (c :: p.1, p.2)
    else ([], c :: cs)

/-- Numeric value of a digit run, most significant digit first. -/
def digitsVal (ds : List Char) : ℕ :=
  ds.foldl (fun acc c => 10 * acc + (c.toNat - 48)) 0

/-- Parse a leading unsigned decimal numeral. -/
def parseNat (cs : List Char) : Option (ℕ × List Char) :=
  let p := takeDigits cs
  if p.1 = [] then none else some (digitsVal p.1, p.2)

/-- Parse a leading (possibly negative) decimal numeral. -/
def parseInt (cs : List Char) : Option (ℤ × List Char) :=
  match cs with
  | [] => none
  | c :: cs' =>
    if c = '-' then (parseNat cs').map (fun p => (-(p.1 : ℤ), p.2))
    else (parseNat (c :: cs')).map (fun p => ((p.1 : ℤ), p.2))

/-- Parse the comma-separated elements of a non-empty JSON array of numbers,
up to and including the closing bracket.  The fuel argument bounds the
number of elements and makes the recursion structural. -/
def parseRowItems : ℕ → List Char → Option (List ℤ × List Char)
  | 0, _ => none
  | fuel + 1, cs =>
    match parseInt cs with
    | none => none
    | some (n, rest) =>
      match rest with
      | [] => none
      | c :: rest' =>
        if c = ',' then (parseRowItems fuel rest').map (fun p => (n :: p.1, p.2))
        else if c = ']' then some ([n], rest')
        else none

/-- Parse one JSON array of numbers. -/
def parseRow (fuel : ℕ) (cs : List Char) : Option (List ℤ × List Char) :=
  match cs with
  | '[' :: rest =>
    if rest.head? = some ']' then some ([], rest.tail)
    else parseRowItems fuel rest
  | _ => none

/-- Parse the comma-separated rows of a non-empty JSON array of arrays, up
to and including the closing bracket. -/
def parseMatrixItems : ℕ → ℕ → List Char → Option (List (List ℤ) × List Char)
  | 0, _, _ => none
  | fuel + 1, rowFuel, cs =>
    match parseRow rowFuel cs with
    | none => none
    | some (row, rest) =>
      match rest with
      | [] => none
      | c :: rest' =>
        if c = ',' then
          (parseMatrixItems fuel rowFuel rest').map (fun p => (row :: p.1, p.2))
        else if c = ']' then some ([row], rest')
        else none

/-- Parse a JSON array-of-arrays value at the start of the input. -/
def parseMatrixTop (cs : List Char) : Option (List (List ℤ) × List Char) :=
  match cs with
  | '[' :: rest =>
    if rest.head? = some ']' then some ([], rest.tail)
    else parseMatrixItems cs.length cs.length rest
  | _ => none

/-- Model of `JSON.parse` restricted to the integer-matrix fragment of JSON
(the output language of `stringifyHomography`); any input outside the
fragment is modelled as a parse failure, and trailing input after the value
is rejected, as in `JSON.parse`.  The claims verified here do not depend on
the excluded JSON forms. -/
def jsonParseMatrix (s : String) : Option (List (List ℤ)) :=
  match parseMatrixTop s.data with
  | some (m, []) => some m
  | _ => none

/-- A JavaScript error value (the model keeps no message detail). -/
inductive JsError where
  | malformed
  deriving DecidableEq, Repr

/-- Outcome of a JavaScript call: a normal return or a thrown exception. -/
inductive JsOutcome (α : Type) where
  | ok (value : α)
  | thrown (error : JsError)
  deriving DecidableEq, Repr

/-- Model of `JSON.parse` over the matrix fragment: throws on malformed input. -/
def jsJsonParseMatrix (s : String) : JsOutcome (List (List ℤ)) :=
  match jsonParseMatrix s with
  | some m => .ok m
  | none => .thrown .malformed

/-- Embeds `stringifyHomography` from `utils.ts`: falsy input (`null`, `undefined`)
returns `null`; `JSON.stringify` of a plain numeric matrix cannot throw, so
the source's catch branch never fires in the model. -/
def stringifyHomography (matrix : Option (List (List ℤ))) : Option String :=
  match matrix with
  | none => none
  | some m => some (String.mk (matrixChars m))

/-- Embeds `parseHomography` from `utils.ts`: falsy input (`null`, `undefined`,
`""`) returns `null`; otherwise `JSON.parse` inside try/catch, where the
catch returns `null`. -/
def parseHomography (homographyString : Option String) :
    JsOutcome (Option (List (List ℤ))) :=
  if truthyS homographyString then
    match jsJsonParseMatrix (homographyString.getD ("")) with
    | .ok m => .ok (some m)
    | .thrown _ => .ok none
  else .ok none

/-- Embeds `parseRoiMap` from `utils.ts`: `JSON.parse` inside try/catch returning
`null` on malformed input (the parsed value is modelled over the same JSON
fragment as the rest of this file). -/
def parseRoiMap (roiMapString : String) : JsOutcome (Option (List (List ℤ))) :=
  match jsJsonParseMatrix roiMapString with
  | .ok v => .ok (some v)
  | .thrown _ => .ok none

theorem digitChar_isDigit {d : ℕ} (hd : d < 10) : (digitChar d).isDigit = true := by
  interval_cases d <;> decide

theorem digitChar_toNat {d : ℕ} (hd : d < 10) : (digitChar d).toNat = 48 + d := by
  interval_cases d <;> decide

theorem natChars_ne_nil (n : ℕ) : natChars n ≠ [] := by
  rw [natChars]
  by_cases h : n = 0
  · simp [h]
  · simp only [h, if_false]
    simp only [ne_eq, List.map_eq_nil_iff, List.reverse_eq_nil_iff]
    exact Nat.digits_ne_nil_iff_ne_zero.mpr h

theorem natChars_digits (n : ℕ) : ∀ c ∈ natChars n, c.isDigit = true := by
  intro c hc
  rw [natChars] at hc
  by_cases h : n = 0
  · simp [h] at hc
    rw [hc]
    decide
  · simp only [h, if_false, List.mem_map, List.mem_reverse] at hc
    obtain ⟨d, hd, rfl⟩ := hc
    exact digitChar_isDigit (Nat.digits_lt_base (by norm_num) hd)

theorem digitsVal_aux :
    ∀ L : List ℕ, (∀ d ∈ L, d < 10) →
      ∀ a : ℕ,
        (L.reverse.map digitChar).foldl (fun acc c => 10 * acc + (c.toNat - 48)) a
          = a * 10 ^ L.length + Nat.ofDigits 10 L := by
  intro L
  induction L with
  | nil =>
    intro _ a
    simp [Nat.ofDigits_nil]
  | cons d t ih =>
    intro hL a
    have hd : d < 10 := hL d (List.mem_cons_self _ _)
    have ht : ∀ x ∈ t, x < 10 := fun x hx => hL x (List.mem_cons_of_mem _ hx)
    rw [List.reverse_cons, List.map_append, List.foldl_append, ih ht a]
    simp only [List.map_cons, List.map_nil, List.foldl_cons, List.foldl_nil]
    rw [digitChar_toNat hd, Nat.ofDigits_cons, List.length_cons, pow_succ]
    have : 48 + d - 48 = d := by omega
    rw [this]
    ring

theorem digitsVal_natChars (n : ℕ) : digitsVal (natChars n) = n := by
  rw [natChars]
  by_cases h : n = 0
  · simp [h, digitsVal]
  · rw [if_neg h, digitsVal,
      digitsVal_aux _ (fun d hd => Nat.digits_lt_base (by norm_num) hd) 0]
    simp [Nat.ofDigits_digits]

/-- The input does not begin with a digit character. -/
def headNotDigit (cs : List Char) : Prop :=
  ∀ c, cs.head? = some c → c.isDigit = false

theorem headNotDigit_bracket (rest : List Char) : headNotDigit (']' :: rest) := by
  intro c hc
  simp only [List.head?_cons, Option.some_inj] at hc
  rw [← hc]
  decide

theorem headNotDigit_comma (rest : List Char) : headNotDigit (',' :: rest) := by
  intro c hc
  simp only [List.head?_cons, Option.some_inj] at hc
  rw [← hc]
  decide

theorem takeDigits_append :
    ∀ ds : List Char, (∀ c ∈ ds, c.isDigit = true) →
      ∀ rest : List Char, headNotDigit rest → takeDigits (ds ++ rest) = (ds, rest) := by
  intro ds
  induction ds with
  | nil =>
    intro _ rest hrest
    cases rest with
    | nil => rfl
    | cons c cs =>
      rw [List.nil_append, takeDigits, hrest c rfl]
      simp
  | cons d ds ih =>
    intro hds rest hrest
    rw [List.cons_append, takeDigits, hds d (List.mem_cons_self _ _)]
    simp only [if_true]
    rw [ih (fun c hc => hds c (List.mem_cons_of_mem _ hc)) rest hrest]

theorem parseNat_natChars (n : ℕ) (rest : List Char) (hrest : headNotDigit rest) :
    parseNat (natChars n ++ rest) = some (n, rest) := by
  rw [parseNat, takeDigits_append (natChars n) (natChars_digits n) rest hrest]
  simp [natChars_ne_nil n, digitsVal_natChars n]

theorem isDigit_ne_dash {c : Char} (h : c.isDigit = true) : c ≠ '-' := by
  intro he
  rw [he] at h
  exact absurd h (by decide)

theorem parseInt_intChars (n : ℤ) (rest : List Char) (hrest : headNotDigit rest) :
    parseInt (intChars n ++ rest) = some (n, rest) := by
  rw [intChars]
  by_cases h : n < 0
  · rw [if_pos h, List.cons_append, parseInt, if_pos rfl,
      parseNat_natChars _ _ hrest]
    simp only [Option.map_some', Option.some_inj, Prod.mk.injEq]
    exact ⟨by omega, trivial⟩
  · rw [if_neg h]
    obtain ⟨c, cs, hc⟩ : ∃ c cs, natChars n.toNat = c :: cs := by
      cases hnc : natChars n.toNat with
      | nil => exact absurd hnc (natChars_ne_nil _)
      | cons c cs => exact ⟨c, cs, rfl⟩
    have hcd : c.isDigit = true :=
      natChars_digits n.toNat c (by rw [hc]; exact List.mem_cons_self _ _)
    rw [hc, List.cons_append, parseInt, if_neg (isDigit_ne_dash hcd),
      ← List.cons_append, ← hc, parseNat_natChars _ _ hrest]
    simp only [Option.map_some', Option.some_inj, Prod.mk.injEq]
    exact ⟨by omega, trivial⟩

theorem intChars_ne_nil (n : ℤ) : intChars n ≠ [] := by
  rw [intChars]
  by_cases h : n < 0
  · simp [h]
  · simp [h, natChars_ne_nil]

theorem intChars_head (n : ℤ) :
    ∃ c cs, intChars n = c :: cs ∧ (c = '-' ∨ c.isDigit = true) := by
  rw [intChars]
  by_cases h : n < 0
  · rw [if_pos h]
    exact ⟨'-', natChars n.natAbs, rfl, Or.inl rfl⟩
  · rw [if_neg h]
    obtain ⟨c, cs, hc⟩ : ∃ c cs, natChars n.toNat = c :: cs := by
      cases hnc : natChars n.toNat with
      | nil => exact absurd hnc (natChars_ne_nil _)
      | cons c cs => exact ⟨c, cs, rfl⟩
    exact ⟨c, cs, hc,
      Or.inr (natChars_digits n.toNat c (by rw [hc]; exact List.mem_cons_self _ _))⟩

theorem joinComma_intChars_cons (x : ℤ) (l : List (List Char)) :
    ∃ c z, joinComma (intChars x :: l) = c :: z ∧ (c = '-' ∨ c.isDigit = true) := by
  obtain ⟨c, cs, hc, hcp⟩ := intChars_head x
  cases l with
  | nil => exact ⟨c, cs, by rw [joinComma, hc], hcp⟩
  | cons b l' =>
    refine ⟨c, cs ++ (',' :: joinComma (b :: l')), ?_, hcp⟩
    show intChars x ++ (',' :: joinComma (b :: l')) = _
    rw [hc, List.cons_append]

theorem parseRowItems_joinComma :
    ∀ xs : List ℤ, xs ≠ [] →
      ∀ fuel : ℕ, xs.length ≤ fuel →
        ∀ rest : List Char,
          parseRowItems fuel (joinComma (xs.map intChars) ++ (']' :: rest))
            = some (xs, rest) := by
  intro xs
  induction xs with
  | nil => intro h; exact absurd rfl h
  | cons x t ih =>
    intro _ fuel hfuel rest
    obtain ⟨f, rfl⟩ : ∃ f, fuel = f + 1 := by
      cases fuel with
      | zero => exact absurd hfuel (by simp)
      | succ f => exact ⟨f, rfl⟩
    cases t with
    | nil =>
      simp only [List.map_cons, List.map_nil, joinComma]
      rw [parseRowItems, parseInt_intChars x (']' :: rest) (headNotDigit_bracket rest)]
      simp
    | cons y t' =>
      have hjoin : joinComma ((x :: y :: t').map intChars)
          = intChars x ++ (',' :: joinComma ((y :: t').map intChars)) := by
        simp only [List.map_cons]
        rfl
      rw [hjoin, List.append_assoc, List.cons_append,
        parseRowItems, parseInt_intChars x _ (headNotDigit_comma _)]
      have hih := ih (by simp) f (by simp only [List.length_cons] at hfuel ⊢; omega) rest
      simp only [List.map_cons] at hih
      simp [hih]

theorem parseRow_rowChars (row : List ℤ) (fuel : ℕ) (hfuel : row.length ≤ fuel)
    (rest : List Char) : parseRow fuel (rowChars row ++ rest) = some (row, rest) := by
  cases row with
  | nil => simp [rowChars, joinComma, parseRow]
  | cons x t =>
    rw [rowChars, List.cons_append, parseRow, List.append_assoc,
      List.singleton_append]
    obtain ⟨c, z, hz, hcp⟩ :=
      joinComma_intChars_cons x (t.map intChars)
    have hz' : joinComma ((x :: t).map intChars) = c :: z := by
      simpa using hz
    rw [hz', List.cons_append]
    rw [if_neg ?_]
    · rw [← List.cons_append, ← hz']
      exact parseRowItems_joinComma (x :: t) (by simp) fuel hfuel rest
    · simp only [List.head?_cons, Option.some_inj]
      rcases hcp with hcp | hcp
      · rw [hcp]
        decide
      · intro he
        rw [he] at hcp
        exact absurd hcp (by decide)

theorem rowChars_head (row : List ℤ) :
    ∃ z, rowChars row = '[' :: z := ⟨_, rfl⟩

theorem joinComma_rowChars_cons (r : List ℤ) (l : List (List Char)) :
    ∃ z, joinComma (rowChars r :: l) = '[' :: z := by
  cases l with
  | nil => exact ⟨_, rfl⟩
  | cons b l' =>
    refine ⟨(joinComma (r.map intChars) ++ [']']) ++ (',' :: joinComma (b :: l')), ?_⟩
    show rowChars r ++ (',' :: joinComma (b :: l')) = _
    rw [rowChars, List.cons_append]

theorem parseMatrixItems_joinComma :
    ∀ rows : List (List ℤ), rows ≠ [] →
      ∀ fuel : ℕ, rows.length ≤ fuel →
        ∀ rowFuel : ℕ, (∀ r ∈ rows, r.length ≤ rowFuel) →
          ∀ rest : List Char,
            parseMatrixItems fuel rowFuel
                (joinComma (rows.map rowChars) ++ (']' :: rest))
              = some (rows, rest) := by
  intro rows
  induction rows with
  | nil => intro h; exact absurd rfl h
  | cons r t ih =>
    intro _ fuel hfuel rowFuel hrf rest
    obtain ⟨f, rfl⟩ : ∃ f, fuel = f + 1 := by
      cases fuel with
      | zero => exact absurd hfuel (by simp)
      | succ f => exact ⟨f, rfl⟩
    have hr : r.length ≤ rowFuel := hrf r (List.mem_cons_self _ _)
    cases t with
    | nil =>
      simp only [List.map_cons, List.map_nil, joinComma]
      rw [parseMatrixItems, parseRow_rowChars r rowFuel hr (']' :: rest)]
      simp
    | cons r' t' =>
      have hjoin : joinComma ((r :: r' :: t').map rowChars)
          = rowChars r ++ (',' :: joinComma ((r' :: t').map rowChars)) := by
        simp only [List.map_cons]
        rfl
      rw [hjoin, List.append_assoc, List.cons_append,
        parseMatrixItems, parseRow_rowChars r rowFuel hr _]
      have hih := ih (by simp) f (by simp only [List.length_cons] at hfuel ⊢; omega) rowFuel
        (fun x hx => hrf x (List.mem_cons_of_mem _ hx)) rest
      simp only [List.map_cons] at hih
      simp [hih]

theorem joinComma_length_ge :
    ∀ ls : List (List Char), (∀ x ∈ ls, x ≠ []) → ls.length ≤ (joinComma ls).length := by
  intro ls
  induction ls with
  | nil => intro _; simp
  | cons a l ih =>
    intro h
    have ha : a ≠ [] := h a (List.mem_cons_self _ _)
    have ha1 : 1 ≤ a.length := List.length_pos_iff_ne_nil.mpr ha
    cases l with
    | nil => simpa using ha1
    | cons b l' =>
      have := ih (fun x hx => h x (List.mem_cons_of_mem _ hx))
      show (b :: l').length + 1 ≤ (a ++ (',' :: joinComma (b :: l'))).length
      simp only [List.length_append, List.length_cons] at this ⊢
      omega

theorem joinComma_mem_length :
    ∀ (ls : List (List Char)) (x : List Char), x ∈ ls → x.length ≤ (joinComma ls).length := by
  intro ls
  induction ls with
  | nil => intro x hx; simp at hx
  | cons a l ih =>
    intro x hx
    rcases List.mem_cons.mp hx with he | hm
    · subst he
      cases l with
      | nil => simp [joinComma]
      | cons b l' =>
        show x.length ≤ (x ++ (',' :: joinComma (b :: l'))).length
        simp
    · cases l with
      | nil => simp at hm
      | cons b l' =>
        have := ih x hm
        show x.length ≤ (a ++ (',' :: joinComma (b :: l'))).length
        simp only [List.length_append, List.length_cons]
        omega

theorem rowChars_length_ge (row : List ℤ) : row.length ≤ (rowChars row).length := by
  have h1 : (row.map intChars).length ≤ (joinComma (row.map intChars)).length :=
    joinComma_length_ge _ (by
      intro x hx
      obtain ⟨n, -, rfl⟩ := List.mem_map.mp hx
      exact intChars_ne_nil n)
  rw [rowChars]
  simp only [List.length_cons, List.length_append, List.length_map] at h1 ⊢
  omega

theorem rowChars_ne_nil (row : List ℤ) : rowChars row ≠ [] := by
  rw [rowChars]
  simp

theorem parseMatrixTop_matrixChars (m : List (List ℤ)) :
    parseMatrixTop (matrixChars m) = some (m, []) := by
  cases m with
  | nil => rfl
  | cons r rs =>
    rw [matrixChars, parseMatrixTop]
    obtain ⟨z, hz⟩ := joinComma_rowChars_cons r (rs.map rowChars)
    have hz' : joinComma ((r :: rs).map rowChars) = '[' :: z := by
      simpa using hz
    have hfuelrows : (r :: rs).length
        ≤ ('[' :: (joinComma ((r :: rs).map rowChars) ++ [']'])).length := by
      have := joinComma_length_ge ((r :: rs).map rowChars) (by
        intro x hx
        obtain ⟨q, -, rfl⟩ := List.mem_map.mp hx
        exact rowChars_ne_nil q)
      simp only [List.length_map, List.length_cons] at this
      simp only [List.length_cons, List.length_append]
      omega
    have hfuelrow : ∀ q ∈ r :: rs,
        q.length ≤ ('[' :: (joinComma ((r :: rs).map rowChars) ++ [']'])).length := by
      intro q hq
      have h1 : q.length ≤ (rowChars q).length := rowChars_length_ge q
      have h2 : (rowChars q).length ≤ (joinComma ((r :: rs).map rowChars)).length :=
        joinComma_mem_length _ _ (List.mem_map_of_mem rowChars hq)
      simp only [List.length_cons, List.length_append]
      omega
    rw [hz', List.cons_append, if_neg (by simp)]
    rw [← List.cons_append, ← hz']
    have : joinComma ((r :: rs).map rowChars) ++ [']']
        = joinComma ((r :: rs).map rowChars) ++ (']' :: []) := rfl
    rw [this]
    exact parseMatrixItems_joinComma (r :: rs) (by simp) _
      (by simpa using hfuelrows) _ (by simpa using hfuelrow) []

theorem jsonParseMatrix_matrixChars (m : List (List ℤ)) :
    jsonParseMatrix (String.mk (matrixChars m)) = some m := by
  rw [jsonParseMatrix,
    show (String.mk (matrixChars m)).data = matrixChars m from rfl,
    parseMatrixTop_matrixChars]

theorem stringifyHomography_ne_empty (m : List (List ℤ)) :
    String.mk (matrixChars m) ≠ "" := by
  intro he
  have hd : (String.mk (matrixChars m)).data = ("" : String).data := by rw [he]
  rw [show (String.mk (matrixChars m)).data = matrixChars m from rfl,
    show ("" : String).data = [] from rfl, matrixChars] at hd
  exact List.cons_ne_nil _ _ hd

/-- C5: `parseHomography (stringifyHomography m)` returns `m` unchanged for
every integer matrix — rectangular matrices in particular — so the
homography serialization round-trips. -/
theorem parseHomography_stringifyHomography (m : List (List ℤ)) :
    parseHomography (stringifyHomography (some m)) = .ok (some m) := by
  rw [stringifyHomography, parseHomography]
  have htr : truthyS (some (String.mk (matrixChars m))) = true := by
    rw [truthyS]
    simp [stringifyHomography_ne_empty m]
  rw [if_pos htr,
    show (some (String.mk (matrixChars m))).getD ("") = String.mk (matrixChars m)
      from rfl,
    jsJsonParseMatrix, jsonParseMatrix_matrixChars]

/-- C9: `parseHomography` and `parseRoiMap` are total and never throw —
every input yields a normal `ok` result — and a malformed encoding yields
the explicit absent value `ok none` via the source's catch branch. -/
theorem parse_homography_roiMap_total :
    (∀ s : Option String, ∃ r, parseHomography s = .ok r)
    ∧ (∀ s : String, ∃ r, parseRoiMap s = .ok r)
    ∧ (∀ s : String, jsonParseMatrix s = none → parseRoiMap s = .ok none)
    ∧ (∀ s : String, jsonParseMatrix s = none → parseHomography (some s) = .ok none) := by
  refine ⟨fun s => ?_, fun s => ?_, fun s h => ?_, fun s h => ?_⟩
  · rw [parseHomography]
    by_cases ht : truthyS s = true
    · rw [if_pos ht]
      cases hj : jsJsonParseMatrix (s.getD ("")) <;> exact ⟨_, rfl⟩
    · rw [if_neg ht]
      exact ⟨none, rfl⟩
  · rw [parseRoiMap]
    cases hj : jsJsonParseMatrix s <;> exact ⟨_, rfl⟩
  · rw [parseRoiMap, jsJsonParseMatrix, h]
  · rw [parseHomography]
    by_cases ht : truthyS (some s) = true
    · rw [if_pos ht, show (some s).getD ("") = s from rfl, jsJsonParseMatrix, h]
    · rw [if_neg ht]

/-- Witness for C9 at concrete malformed inputs. -/
theorem parse_homography_roiMap_total_witness :
    parseRoiMap (String.mk ['x']) = .ok none
    ∧ parseHomography (some (String.mk ['x'])) = .ok none := by
  constructor
  · exact parse_homography_roiMap_total.2.2.1 (String.mk ['x']) (by rfl)
  · exact parse_homography_roiMap_total.2.2.2 (String.mk ['x']) (by rfl)

end GnlVinaScan
